import Mathlib

/-!
Verification of the workflow execution engine of the agentic-platform
repository (`src/agentic_platform/workflow/engine.py` and the workflow
definition loader `src/agentic_platform/platform/workflow/definition.py`),
as a shallow embedding in Lean 4.

Python values flowing through the engine (input documents, template maps,
tool results) are modelled by the inductive type `Val`; Python `None` is
`Val.vnone`, dicts are association lists with unique keys.  Guard
conditions, which the source evaluates with Python `eval` against the
input document, are modelled by their evaluation outcome: a function
`Val → Option Bool` returning `none` when the evaluation raises and
`some b` when it yields a value of truthiness `b`.  A raising tool client
is modelled by `Except`; the error type is a parameter, so a propagated
error is propagated literally unchanged.  The `while` loop of `run` is
rendered with an explicit fuel argument; exhausting fuel produces the
distinguished error `RunErr.fuelExhausted`, which is never an `ok`
outcome, so "the run returns X" statements are unaffected by fuel.
-/

namespace AgenticPlatform
/-- Python values as seen by the engine: `None`, booleans, integers,
strings, and dicts (association lists, first binding wins on lookup). -/
inductive Val : Type where
  | vnone : Val
  | vbool : Bool → Val
  | vint : Int → Val
  | vstr : String → Val
  | vdict : List (String × Val) → Val

/-- Lookup in a (unique-key) dict: the Python expression `d[k]` /
`d.get(k)` without the default, returning `none` when the key is absent. -/
def dict_get : List (String × Val) → String → Option Val
  | [], _ => none
  | (k, v) :: rest, key => if k = key then some v else dict_get rest key

/-- Python `current.get(part)`: `.get` with default `None` — a missing key
and a key stored with value `None` are indistinguishable. -/
def py_get (entries : List (String × Val)) (key : String) : Val :=
  (dict_get entries key).getD Val.vnone

/-- The path walk of `resolve_args` (engine.py lines 16-24): for each part,
if the current value is a dict, take `current.get(part)` and stop with
`None` as soon as the value is `None`; if it is not a dict, the result is
`None`. -/
def walk_path : List String → Val → Val
  | [], current => current
  | part :: rest, current =>
    match current with
    | Val.vdict entries =>
      match py_get entries part with
      | Val.vnone => Val.vnone
      | v => walk_path rest v
    | _ => Val.vnone

/-- The `$\x7b...\x7d` template test of `resolve_args` (engine.py line 10):
a string value that starts with `$\x7b` and ends with `\x7d` is a template
reference, and `value[2:-1]` is the dotted path. -/
def template_path : Val → Option String
  | Val.vstr s =>
    if s.startsWith "$\x7b" && s.endsWith "\x7d" then
      some ((s.drop 2).dropRight 1)
    else none
  | _ => none

/-- Resolution of one template value of `resolve_args`: a template
reference is replaced by the walk over the split path, any other value is
copied unchanged (engine.py lines 10-25). -/
def resolve_one (input_artifact : Val) (value : Val) : Val :=
  match template_path value with
  | some path => walk_path (path.splitOn ".") input_artifact
  | none => value

/-- Model of `resolve_args(args, input_artifact)` from engine.py lines 4-26.  The
source begins with `if not args: return input_artifact`, so both an absent
(`None`) and an empty template dict fall through to the whole input
document; otherwise each key of the template is resolved independently. -/
def resolve_args (args : Option (List (String × Val))) (input_artifact : Val) : Val :=
  match args with
  | none => input_artifact
  | some [] => input_artifact
  | some entries =>
    Val.vdict (entries.map (fun kv => (kv.1, resolve_one input_artifact kv.2)))

/-- Model of `AuditEvent` from `src/agentic_platform/core/types.py`: a frozen
dataclass of five strings. -/
structure AuditEvent where
  event_type : String
  job_id : String
  node_id : String
  timestamp : String
  status : String
deriving DecidableEq

/-- A node of a workflow definition dict: `id` and `type` are mandatory
keys (`n["id"]`, `n["type"]`), `tool` and `args` are accessed only on tool
nodes (`next_node["tool"]`, `next_node.get("args")`). -/
structure NodeDef where
  id : String
  type : String
  tool : Option String
  args : Option (List (String × Val))

/-- A guard condition, modelled by its evaluation against the input
document: `none` when the Python `eval` raises, `some b` when it returns a
value of truthiness `b`. -/
abbrev Guard : Type := Val → Option Bool

/-- An edge of a workflow definition dict: mandatory `from`/`to` keys and
an optional `condition` (`e.get("condition")`). -/
structure EdgeDef where
  from_ : String
  to_ : String
  condition : Option Guard

/-- A workflow definition: ordered node and edge lists. -/
structure WfDef where
  nodes : List NodeDef
  edges : List EdgeDef

/-- The saved state of a paused run (engine.py line 59):
`{"current_node_id": ..., "visited": list(visited)}`.  The source keys the
visited set by the singleton tuple `(node_id,)`; the tuple wrapper is an
injective tag and is dropped here. -/
structure Checkpoint where
  current_node_id : String
  visited : List String
deriving DecidableEq

/-- The result dict returned by `run`:
`{"job_id": ..., "status": ..., "tool_results": ...}`, with each tool
result entry `{"node_id": ..., "result": ...}` as a pair. -/
structure RunResult where
  job_id : String
  status : String
  tool_results : List (String × Val)

/-- Errors `run` can raise.  `cycleDetected` and `noViableTransition` are
the two `RuntimeError`s of engine.py; `keyError` is a Python `KeyError`
from a dict subscript (`node_map[...]`, `next_node["tool"]`);
`stopIteration` is the `next(...)` failure when no start node exists;
`toolError` wraps, unchanged, whatever the tool client raised;
`fuelExhausted` is the artifact of the fuel rendering of the `while` loop
and corresponds to no source behaviour. -/
inductive RunErr (ε : Type) : Type where
  | cycleDetected : String → RunErr ε
  | noViableTransition : String → RunErr ε
  | keyError : String → RunErr ε
  | stopIteration : RunErr ε
  | toolError : ε → RunErr ε
  | fuelExhausted : RunErr ε

/-- The node map `{n["id"]: n for n in wf_def["nodes"]}` (engine.py
line 30): on duplicate ids the last binding wins, hence the lookup over
the reversed list. -/
def node_map_get (nodes : List NodeDef) (id : String) : Option NodeDef :=
  nodes.reverse.find? (fun n => n.id == id)

/-- The edge-selection scan of engine.py lines 66-78, with the running
`next_edge` candidate: an unconditional edge is recorded only if the
candidate is still unset; a guard that evaluates to a truthy value selects
its edge immediately; a guard that evaluates falsy, or raises, is
skipped. -/
def select_edge_loop (input_artifact : Val) : List EdgeDef → Option EdgeDef → Option EdgeDef
  | [], candidate => candidate
  | e :: rest, candidate =>
    match e.condition with
    | none =>
      select_edge_loop input_artifact rest
        (match candidate with
         | none => some e
         | some c => some c)
    | some g =>
      match g input_artifact with
      | some true => some e
      | _ => select_edge_loop input_artifact rest candidate

/-- Edge selection over a node's outgoing edges (`next_edge` starts as
`None`). -/
def select_edge (edges : List EdgeDef) (input_artifact : Val) : Option EdgeDef :=
  select_edge_loop input_artifact edges none

/-- The `StepStarted`/`StepEnded` audit-event pair a tool node execution
emits (engine.py lines 85-106), with the source's literal timestamps. -/
def tool_pair (job_id node_id : String) : List AuditEvent :=
  [⟨"STEP_STARTED", job_id, node_id, "2026-01-31T00:00:01Z", "started"⟩,
   ⟨"STEP_ENDED", job_id, node_id, "2026-01-31T00:00:02Z", "ended"⟩]

/-- The `while current["type"] != "end"` loop of engine.py lines 52-112,
with explicit fuel.  Outputs the full emitted event list (the audit sink
is append-only, so it is threaded as an accumulator) together with either
the raised error or the result dict and the optionally returned saved
state. -/
def run_loop {ε : Type} (nodes : List NodeDef) (edges : List EdgeDef)
    (input_artifact : Val) (tool_client : String → Val → Except ε Val)
    (stop_at_node : Option String) (return_state : Bool) (job_id : String) :
    Nat → NodeDef → List String → List (String × Val) → List AuditEvent →
    List AuditEvent × Except (RunErr ε) (RunResult × Option Checkpoint)
  | fuel, current, visited, tool_results, log =>
    if current.type = "end" then
      (log ++ [⟨"STEP_ENDED", job_id, current.id, "2026-01-31T00:00:03Z", "ended"⟩],
       Except.ok (⟨job_id, "completed", tool_results⟩, none))
    else
      match fuel with
      | 0 => (log, Except.error RunErr.fuelExhausted)
      | fuel + 1 =>
        if current.id ∈ visited then
          (log, Except.error (RunErr.cycleDetected current.id))
        else
          let visited := current.id :: visited
          if stop_at_node = some current.id then
            (log, Except.ok (⟨job_id, "paused", tool_results⟩,
              if return_state then some ⟨current.id, visited⟩ else none))
          else
            match select_edge (edges.filter (fun e => e.from_ == current.id)) input_artifact with
            | none => (log, Except.error (RunErr.noViableTransition current.id))
            | some next_edge =>
              match node_map_get nodes next_edge.to_ with
              | none => (log, Except.error (RunErr.keyError next_edge.to_))
              | some next_node =>
                if next_node.type = "tool" then
                  let log := log ++
                    [⟨"STEP_STARTED", job_id, next_node.id, "2026-01-31T00:00:01Z", "started"⟩]
                  match next_node.tool with
                  | none =>
                    (log ++ [⟨"STEP_ERRORED", job_id, next_node.id,
                        "2026-01-31T00:00:02Z", "errored"⟩],
                     Except.error (RunErr.keyError "tool"))
                  | some tool_name =>
                    match tool_client tool_name (resolve_args next_node.args input_artifact) with
                    | Except.error e =>
                      (log ++ [⟨"STEP_ERRORED", job_id, next_node.id,
                          "2026-01-31T00:00:02Z", "errored"⟩],
                       Except.error (RunErr.toolError e))
                    | Except.ok tool_result =>
                      run_loop nodes edges input_artifact tool_client stop_at_node
                        return_state job_id fuel next_node visited
                        (tool_results ++ [(next_node.id, tool_result)])
                        (log ++ [⟨"STEP_ENDED", job_id, next_node.id,
                          "2026-01-31T00:00:02Z", "ended"⟩])
                else
                  run_loop nodes edges input_artifact tool_client stop_at_node
                    return_state job_id fuel next_node visited tool_results log

/-- Model of `run(wf_def, input_artifact, tool_client, audit_log, stop_at_node,
return_state, resume_state)` from engine.py lines 28-123.  The audit sink
is rendered as the returned event list; `job_id = generate_job_id()` is
taken as a parameter (`agentic_platform.core.ids` is an empty module, so
the id generator is an external fresh-string source).  The source returns
a bare result dict or a `(result, state)` pair depending on
`return_state`/`resume_state`; both shapes are rendered uniformly as the
result paired with an optional saved state (`none` when the source
returns no state or returns `None` for it). -/
def run {ε : Type} (fuel : Nat) (wf_def : WfDef) (input_artifact : Val)
    (tool_client : String → Val → Except ε Val) (job_id : String)
    (stop_at_node : Option String) (return_state : Bool)
    (resume_state : Option Checkpoint) :
    List AuditEvent × Except (RunErr ε) (RunResult × Option Checkpoint) :=
  match resume_state with
  | some st =>
    match node_map_get wf_def.nodes st.current_node_id with
    | none => ([], Except.error (RunErr.keyError st.current_node_id))
    | some current =>
      let visited := st.visited.dedup
      let visited := if current.id ∈ visited then visited.erase current.id else visited
      run_loop wf_def.nodes wf_def.edges input_artifact tool_client stop_at_node
        return_state job_id fuel current visited [] []
  | none =>
    match wf_def.nodes.find? (fun n => n.type == "start") with
    | none => ([], Except.error RunErr.stopIteration)
    | some current =>
      run_loop wf_def.nodes wf_def.edges input_artifact tool_client stop_at_node
        return_state job_id fuel current [] []
        [⟨"STEP_STARTED", job_id, current.id, "2026-01-31T00:00:00Z", "started"⟩]

/-- A raw parsed workflow document, before the key-presence check of
`parse_workflow_yaml` (`src/agentic_platform/platform/workflow/definition.py`). -/
structure RawWorkflowDoc where
  nodes_key : Option (List NodeDef)
  edges_key : Option (List EdgeDef)

/-- The entire validation performed by `parse_workflow_yaml` (definition.py
lines 4-10) after YAML loading: it only checks that the `nodes` and
`edges` keys are present, and otherwise returns the data unchanged. -/
def parse_workflow_check (data : RawWorkflowDoc) : Except String WfDef :=
  match data.nodes_key, data.edges_key with
  | some ns, some es => Except.ok ⟨ns, es⟩
  | _, _ => Except.error "Invalid workflow YAML: missing nodes or edges"

/-- Spec-side path walk, written from the spec's words for claim C6:
"split the path on `.` and walk the `input_document` (a nested map),
returning the terminal value or `null` if any segment is missing or the
current value is not a map". -/
def spec_walk : List String → Val → Val
  | [], current => current
  | part :: rest, current =>
    match current with
    | Val.vdict entries =>
      match dict_get entries part with
      | none => Val.vnone
      | some v => spec_walk rest v
    | _ => Val.vnone

/-- Spec-side resolution of a single template value (claim C6): a string
of the form `$\x7bpath.to.value\x7d` is replaced by the spec-side walk,
any non-template value is copied unchanged. -/
def spec_resolve_value (doc : Val) (v : Val) : Val :=
  match template_path v with
  | some path => spec_walk (path.splitOn ".") doc
  | none => v

/-- Claim C6 formalised from the spec's words: the whole document when the
template is absent, otherwise a map built by resolving each template key
(an empty template therefore yields an empty map). -/
def spec_resolve_c6 (template : Option (List (String × Val))) (doc : Val) : Val :=
  match template with
  | none => doc
  | some entries =>
    Val.vdict (entries.map (fun kv => (kv.1, spec_resolve_value doc kv.2)))

/-- Claim C6 as amended: additionally, a present-but-empty template also
passes the whole document through, matching the source's falsy test. -/
def spec_resolve_amended (template : Option (List (String × Val))) (doc : Val) : Val :=
  match template with
  | none => doc
  | some [] => doc
  | some entries =>
    Val.vdict (entries.map (fun kv => (kv.1, spec_resolve_value doc kv.2)))

/-- State-passing rendering of `resolve_args` for claim C9: the result is
returned together with the input document as it stands after the call.
The source reads `input_artifact` only through `isinstance` tests and
`dict.get` lookups and never assigns into it, so at every `return` point
of the source the document state equals the document that was passed
in. -/
def resolve_args_st (args : Option (List (String × Val))) (input_artifact : Val) :
    Val × Val :=
  match args with
  | none => (input_artifact, input_artifact)
  | some [] => (input_artifact, input_artifact)
  | some entries =>
    (Val.vdict (entries.map (fun kv => (kv.1, resolve_one input_artifact kv.2))),
     input_artifact)

/-- Spec-side guard-match test for claim C2: does this edge carry a guard
that evaluates to true on the input document? -/
def guard_matches (input_artifact : Val) (e : EdgeDef) : Bool :=
  match e.condition with
  | some g => g input_artifact == some true
  | none => false

/-- Claim C2 formalised from the spec's words: the first edge whose guard
evaluates true, and otherwise the first guard-less edge as fallback. -/
def spec_select (edges : List EdgeDef) (input_artifact : Val) : Option EdgeDef :=
  match edges.find? (guard_matches input_artifact) with
  | some e => some e
  | none => edges.find? (fun e => e.condition.isNone)

/-- The spec's tie-break example guard `lang == "A"`, evaluated against a
document: a missing `lang` key or a non-dict document raises (`none`), a
non-string `lang` compares unequal. -/
def guard_lang_is_A : Guard := fun d =>
  match d with
  | Val.vdict entries =>
    match dict_get entries "lang" with
    | some (Val.vstr s) => some (s == "A")
    | some _ => some false
    | none => none
  | _ => none

/-- The spec's tie-break example edges, declared unconditional-first. -/
def edge_start_toolB : EdgeDef := ⟨"start", "toolB", none⟩

def edge_start_toolA : EdgeDef := ⟨"start", "toolA", some guard_lang_is_A⟩

/-- The always-succeeding dummy tool client of the repository's engine
tests: `call` returns a value derived from the tool name and never
raises. -/
def tc_ok : String → Val → Except Unit Val :=
  fun tool_name _ => Except.ok (Val.vstr tool_name)

/-- A tool client whose `call` always raises the error `"boom"`. -/
def tc_fail : String → Val → Except String Val :=
  fun _ _ => Except.error "boom"

/-- A start node as in the repository's engine tests. -/
def nStart : NodeDef := ⟨"start", "start", none, none⟩

/-- An end node as in the repository's engine tests. -/
def nEnd : NodeDef := ⟨"end", "end", none, none⟩

/-- A tool node with the given id and tool name and no args template. -/
def nTool (id tool_name : String) : NodeDef := ⟨id, "tool", some tool_name, none⟩

/-- A guard whose evaluation raises on every input. -/
def guard_raises : Guard := fun _ => none

/-- A guard that evaluates true on every input. -/
def guard_always_true : Guard := fun _ => some true

/-- The engine tests' guard `input == 'A'` over the whole input artifact:
an equality comparison never raises in Python. -/
def guard_input_is_A : Guard := fun d =>
  match d with
  | Val.vstr s => some (s == "A")
  | _ => some false

/-- Workflow whose first outgoing edge of `start` has a raising guard and
whose second has a true guard. -/
def wfSkip : WfDef :=
  ⟨[nStart, nTool "tool1" "dummy_tool1", nEnd],
   [⟨"start", "tool1", some guard_raises⟩,
    ⟨"start", "tool1", some guard_always_true⟩,
    ⟨"tool1", "end", none⟩]⟩

/-- The engine tests' no-viable-branch workflow: the only edge out of
`start` is guarded by `input == 'A'`. -/
def wfGuard : WfDef :=
  ⟨[nStart, nTool "tool1" "dummy_tool1", nEnd],
   [⟨"start", "tool1", some guard_input_is_A⟩,
    ⟨"tool1", "end", none⟩]⟩

/-- The engine tests' error-propagation workflow: `start → tool1 → end`. -/
def wfErr : WfDef :=
  ⟨[nStart, nTool "tool1" "dummy_tool1", nEnd],
   [⟨"start", "tool1", none⟩, ⟨"tool1", "end", none⟩]⟩

/-- The concatenated `StepStarted`/`StepEnded` pairs for a list of tool
node ids, in execution order. -/
def tool_pairs (jid : String) : List String → List AuditEvent
  | [] => []
  | i :: rest => tool_pair jid i ++ tool_pairs jid rest

/-- Number of `STEP_STARTED` events for a node id in a trail. -/
def count_started (node_id : String) (log : List AuditEvent) : Nat :=
  (log.filter (fun ev => ev.event_type == "STEP_STARTED" && ev.node_id == node_id)).length

/-- Number of `STEP_ENDED` events for a node id in a trail. -/
def count_ended (node_id : String) (log : List AuditEvent) : Nat :=
  (log.filter (fun ev => ev.event_type == "STEP_ENDED" && ev.node_id == node_id)).length

/-- Witness for C5 at the concrete two-tool linear workflow. -/
def wfLin : WfDef :=
  ⟨[nStart, nTool "tool1" "dummy_tool1", nTool "tool2" "dummy_tool2", nEnd],
   [⟨"start", "tool1", none⟩, ⟨"tool1", "tool2", none⟩, ⟨"tool2", "end", none⟩]⟩

/-- The C5 counterexample workflow: two tool nodes, `toolB` unreachable. -/
def wfUnreach : WfDef :=
  ⟨[nStart, nTool "toolA" "tA", nTool "toolB" "tB", nEnd],
   [⟨"start", "toolA", none⟩, ⟨"toolA", "end", none⟩]⟩

/-- The engine tests' cyclic workflow: `start → tool1 → start`. -/
def wfCyc : WfDef :=
  ⟨[nStart, nTool "tool1" "dummy_tool1"],
   [⟨"start", "tool1", none⟩, ⟨"tool1", "start", none⟩]⟩

/-- A second Start node, for the malformed-definition counterexample. -/
def nStart2 : NodeDef := ⟨"start2", "start", none, none⟩

/-- An end node whose id duplicates `nEnd`'s but which differs in its
`args` field, so that last-wins node-map behaviour is observable. -/
def nEndDup : NodeDef := ⟨"end", "end", none, some []⟩

/-- A malformed workflow definition: two Start nodes, a duplicated node id
(`end` twice), and a dangling edge (`ghost → nowhere` references two
unknown ids). -/
def wfBad : WfDef :=
  ⟨[nStart, nStart2, nEnd, nEndDup],
   [⟨"start", "end", none⟩, ⟨"ghost", "nowhere", none⟩]⟩

/-- A workflow whose only edge dangles (`start → nowhere`), with the
dangling target on the traversal path. -/
def wfDangle : WfDef :=
  ⟨[nStart, nEnd], [⟨"start", "nowhere", none⟩]⟩

/-- A tool client that raises only on `dummy_tool1` (the tool between the
start node and the stop node of the C1 counterexample). -/
def tc_fail_first : String → Val → Except String Val :=
  fun tool_name _ =>
    if tool_name == "dummy_tool1" then Except.error "boom" else Except.ok Val.vnone

/-- Graph reachability along a workflow's edges, for stating that a stop
node is reachable. -/
inductive Reachable (edges : List EdgeDef) : String → String → Prop where
  | refl (a : String) : Reachable edges a a
  | step (e : EdgeDef) (he : e ∈ edges) (hfrom : e.from_ = a)
      (hr : Reachable edges e.to_ b) : Reachable edges a b

theorem spec_walk_vnone (rest : List String) : spec_walk rest Val.vnone = Val.vnone := by
  cases rest <;> rfl

theorem walk_path_eq_spec_walk (parts : List String) :
    ∀ v : Val, walk_path parts v = spec_walk parts v := by
  induction parts with
  | nil => intro v; rfl
  | cons part rest ih =>
    intro v
    cases v with
    | vdict entries =>
      simp only [walk_path, spec_walk, py_get]
      cases h : dict_get entries part with
      | none => rfl
      | some w =>
        simp only [Option.getD_some]
        cases w with
        | vnone => exact (spec_walk_vnone rest).symm
        | vbool b => exact ih _
        | vint n => exact ih _
        | vstr s => exact ih _
        | vdict m => exact ih _
    | vnone => rfl
    | vbool b => rfl
    | vint n => rfl
    | vstr s => rfl

theorem resolve_one_eq_spec (doc v : Val) :
    resolve_one doc v = spec_resolve_value doc v := by
  unfold resolve_one spec_resolve_value
  cases template_path v with
  | none => rfl
  | some path => exact walk_path_eq_spec_walk _ _

/-- C6 (amended): `resolve_args` agrees with the spec-side resolver
everywhere once the pass-through clause also covers a present-but-empty
template: absent template passes the whole document through, template
references are replaced by the dotted-path walk (null on a missing
segment or a non-map intermediate value), non-template values are copied
unchanged. -/
theorem c6_resolve_args_matches_spec (template : Option (List (String × Val))) (doc : Val) :
    resolve_args template doc = spec_resolve_amended template doc := by
  cases template with
  | none => rfl
  | some entries =>
    cases entries with
    | nil => rfl
    | cons kv rest =>
      simp only [resolve_args, spec_resolve_amended, List.map]
      rw [resolve_one_eq_spec]
      congr 2
      exact List.map_congr_left (fun kv _ => by rw [resolve_one_eq_spec])

/-- C6 counterexample: on a present-but-empty template the code returns
the whole input document, while the claim's reading (formalised as
`spec_resolve_c6`) yields an empty arguments map. -/
theorem c6_counterexample :
    resolve_args (some []) (Val.vdict [("a", Val.vint 1)]) ≠
      spec_resolve_c6 (some []) (Val.vdict [("a", Val.vint 1)]) ∧
    resolve_args (some []) (Val.vdict [("a", Val.vint 1)]) = Val.vdict [("a", Val.vint 1)] ∧
    spec_resolve_c6 (some []) (Val.vdict [("a", Val.vint 1)]) = Val.vdict [] := by
  refine ⟨fun h => ?_, rfl, rfl⟩
  rw [show resolve_args (some []) (Val.vdict [("a", Val.vint 1)]) =
        Val.vdict [("a", Val.vint 1)] from rfl,
      show spec_resolve_c6 (some []) (Val.vdict [("a", Val.vint 1)]) =
        Val.vdict [] from rfl] at h
  simp at h

/-- C10: a present-but-empty args template (like an absent one) passes the
entire input document through; in particular a non-empty document never
yields an empty arguments map. -/
theorem c10_empty_template_pass_through :
    (∀ doc : Val, resolve_args (some []) doc = doc ∧ resolve_args none doc = doc) ∧
    (∀ doc : Val, doc ≠ Val.vdict [] → resolve_args (some []) doc ≠ Val.vdict []) := by
  refine ⟨fun doc => ⟨rfl, rfl⟩, fun doc h => ?_⟩
  rw [show resolve_args (some []) doc = doc from rfl]
  exact h

/-- Witness for C10 at the concrete document `{"a": 1}`. -/
theorem c10_empty_template_pass_through_witness :
    Val.vdict [("a", Val.vint 1)] ≠ Val.vdict [] ∧
    resolve_args (some []) (Val.vdict [("a", Val.vint 1)]) ≠ Val.vdict [] :=
  ⟨by simp, c10_empty_template_pass_through.2 (Val.vdict [("a", Val.vint 1)]) (by simp)⟩

/-- C9: `resolve_args` is deterministic — structurally identical inputs
give structurally equal outputs — and the state-passing rendering returns
the document unchanged, so a second call on the post-call document yields
a structurally equal result. -/
theorem c9_resolve_args_pure (t t' : Option (List (String × Val))) (d d' : Val)
    (ht : t = t') (hd : d = d') :
    resolve_args t d = resolve_args t' d' ∧
    (resolve_args_st t d).2 = d ∧
    (resolve_args_st t d).1 = resolve_args t d ∧
    (resolve_args_st t ((resolve_args_st t d).2)).1 = (resolve_args_st t d).1 := by
  subst ht hd
  have hst : (resolve_args_st t d).2 = d := by
    cases t with
    | none => rfl
    | some entries => cases entries <;> rfl
  have hfst : (resolve_args_st t d).1 = resolve_args t d := by
    cases t with
    | none => rfl
    | some entries => cases entries <;> rfl
  exact ⟨rfl, hst, hfst, by rw [hst]⟩

/-- Witness for C9 at a concrete template and document. -/
theorem c9_resolve_args_pure_witness :
    resolve_args (some [("k", Val.vstr "$\x7ba.b\x7d")])
        (Val.vdict [("a", Val.vdict [("b", Val.vint 7)])]) =
      resolve_args (some [("k", Val.vstr "$\x7ba.b\x7d")])
        (Val.vdict [("a", Val.vdict [("b", Val.vint 7)])]) ∧
    (resolve_args_st (some [("k", Val.vstr "$\x7ba.b\x7d")])
        (Val.vdict [("a", Val.vdict [("b", Val.vint 7)])])).2 =
      Val.vdict [("a", Val.vdict [("b", Val.vint 7)])] ∧
    (resolve_args_st (some [("k", Val.vstr "$\x7ba.b\x7d")])
        (Val.vdict [("a", Val.vdict [("b", Val.vint 7)])])).1 =
      resolve_args (some [("k", Val.vstr "$\x7ba.b\x7d")])
        (Val.vdict [("a", Val.vdict [("b", Val.vint 7)])]) ∧
    (resolve_args_st (some [("k", Val.vstr "$\x7ba.b\x7d")])
        ((resolve_args_st (some [("k", Val.vstr "$\x7ba.b\x7d")])
          (Val.vdict [("a", Val.vdict [("b", Val.vint 7)])])).2)).1 =
      (resolve_args_st (some [("k", Val.vstr "$\x7ba.b\x7d")])
        (Val.vdict [("a", Val.vdict [("b", Val.vint 7)])])).1 :=
  c9_resolve_args_pure _ _ _ _ rfl rfl

theorem select_edge_loop_eq_spec (input_artifact : Val) :
    ∀ (edges : List EdgeDef) (candidate : Option EdgeDef),
    select_edge_loop input_artifact edges candidate =
      match edges.find? (guard_matches input_artifact) with
      | some e => some e
      | none =>
        match candidate with
        | some c => some c
        | none => edges.find? (fun e => e.condition.isNone)
  | [], candidate => by cases candidate <;> rfl
  | e :: rest, candidate => by
    cases hc : e.condition with
    | none =>
      have hg : guard_matches input_artifact e = false := by
        simp [guard_matches, hc]
      have hu : (fun e => e.condition.isNone) e = true := by simp [hc]
      simp only [select_edge_loop, hc, List.find?, hg, hu]
      rw [select_edge_loop_eq_spec input_artifact rest]
      cases candidate with
      | none => cases rest.find? (guard_matches input_artifact) <;> rfl
      | some c => cases rest.find? (guard_matches input_artifact) <;> rfl
    | some g =>
      cases hgv : g input_artifact with
      | none =>
        have hg : guard_matches input_artifact e = false := by
          simp [guard_matches, hc, hgv]
        simp only [select_edge_loop, hc, hgv, List.find?, hg]
        exact select_edge_loop_eq_spec input_artifact rest candidate
      | some b =>
        cases b with
        | true =>
          have hg : guard_matches input_artifact e = true := by
            simp [guard_matches, hc, hgv]
          simp only [select_edge_loop, hc, hgv, List.find?, hg]
        | false =>
          have hg : guard_matches input_artifact e = false := by
            simp [guard_matches, hc, hgv]
          simp only [select_edge_loop, hc, hgv, List.find?, hg]
          exact select_edge_loop_eq_spec input_artifact rest candidate

/-- C2: edge selection equals the spec's rule — first edge whose guard
evaluates true, short-circuiting and overriding a pending unconditional
candidate; first guard-less edge as fallback when no guard is true — and
on the spec's concrete tie-break example `lang:"A"` selects `toolA` while
`lang:"C"` falls back to `toolB`. -/
theorem c2_edge_selection_rule :
    (∀ (edges : List EdgeDef) (input_artifact : Val),
      select_edge edges input_artifact = spec_select edges input_artifact) ∧
    select_edge [edge_start_toolB, edge_start_toolA]
      (Val.vdict [("lang", Val.vstr "A")]) = some edge_start_toolA ∧
    select_edge [edge_start_toolB, edge_start_toolA]
      (Val.vdict [("lang", Val.vstr "C")]) = some edge_start_toolB := by
  refine ⟨fun edges input_artifact => ?_, rfl, rfl⟩
  rw [select_edge, select_edge_loop_eq_spec, spec_select]

/-- C8: a raising guard is skipped without aborting traversal — dropping
the edge from the scan — and when the scan selects no edge the engine
raises `NoViableTransition` for the current node; concretely, a workflow
whose first edge raises still completes through its second edge, and the
guarded workflow on input `"B"` fails with `NoViableTransition` at
`start`. -/
theorem c8_guard_raise_and_no_viable :
    (∀ (input_artifact : Val) (e : EdgeDef) (g : Guard) (rest : List EdgeDef)
       (candidate : Option EdgeDef), e.condition = some g →
       g input_artifact = none →
       select_edge_loop input_artifact (e :: rest) candidate =
         select_edge_loop input_artifact rest candidate) ∧
    (∀ (ε : Type) (nodes : List NodeDef) (edges : List EdgeDef) (input_artifact : Val)
       (tc : String → Val → Except ε Val) (stop : Option String) (rs : Bool)
       (jid : String) (fuel : Nat) (current : NodeDef) (visited : List String)
       (results : List (String × Val)) (log : List AuditEvent),
       current.type ≠ "end" → current.id ∉ visited → stop ≠ some current.id →
       select_edge (edges.filter (fun e => e.from_ == current.id)) input_artifact = none →
       run_loop nodes edges input_artifact tc stop rs jid (fuel + 1) current visited
           results log =
         (log, Except.error (RunErr.noViableTransition current.id))) ∧
    run 10 wfSkip (Val.vstr "A") tc_ok "job-1" none false none =
      ([⟨"STEP_STARTED", "job-1", "start", "2026-01-31T00:00:00Z", "started"⟩,
        ⟨"STEP_STARTED", "job-1", "tool1", "2026-01-31T00:00:01Z", "started"⟩,
        ⟨"STEP_ENDED", "job-1", "tool1", "2026-01-31T00:00:02Z", "ended"⟩,
        ⟨"STEP_ENDED", "job-1", "end", "2026-01-31T00:00:03Z", "ended"⟩],
       Except.ok (⟨"job-1", "completed", [("tool1", Val.vstr "dummy_tool1")]⟩, none)) ∧
    run 10 wfGuard (Val.vstr "B") tc_ok "job-1" none false none =
      ([⟨"STEP_STARTED", "job-1", "start", "2026-01-31T00:00:00Z", "started"⟩],
       Except.error (RunErr.noViableTransition "start")) := by
  refine ⟨fun input_artifact e g rest candidate hc hg => ?_,
    fun ε nodes edges input_artifact tc stop rs jid fuel current visited results log
      hend hvis hstop hsel => ?_, rfl, rfl⟩
  · simp only [select_edge_loop, hc, hg]
  · simp only [run_loop, if_neg hend, if_neg hvis, if_neg hstop, hsel]

/-- Witness for C8's hypothesis-bearing parts: a raising guard's edge is
dropped from a concrete scan, and a concrete loop state with no viable
edge raises `NoViableTransition`. -/
theorem c8_guard_raise_and_no_viable_witness :
    select_edge_loop (Val.vstr "B") [⟨"start", "tool1", some guard_raises⟩] none =
      select_edge_loop (Val.vstr "B") [] none ∧
    run_loop wfGuard.nodes wfGuard.edges (Val.vstr "B") tc_ok none false "job-1"
        (9 + 1) nStart [] []
        [⟨"STEP_STARTED", "job-1", "start", "2026-01-31T00:00:00Z", "started"⟩] =
      ([⟨"STEP_STARTED", "job-1", "start", "2026-01-31T00:00:00Z", "started"⟩],
       Except.error (RunErr.noViableTransition "start")) :=
  ⟨c8_guard_raise_and_no_viable.1 (Val.vstr "B") ⟨"start", "tool1", some guard_raises⟩
      guard_raises [] none rfl rfl,
   c8_guard_raise_and_no_viable.2.1 Unit wfGuard.nodes wfGuard.edges (Val.vstr "B")
      tc_ok none false "job-1" 9 nStart [] []
      [⟨"STEP_STARTED", "job-1", "start", "2026-01-31T00:00:00Z", "started"⟩]
      (by decide) (by decide) (by decide) rfl⟩

/-- C4: when the tool client's call raises while entering a tool node, the
engine emits `StepStarted` then `StepErrored` for that node, appends
nothing to the accumulated tool results, does not recurse (no retry), and
returns the client's error unchanged (the error type is abstract, so the
propagated value is literally the raised one); concretely, a run over
`start → tool1 → end` with an always-raising client produces exactly the
trail `[StepStarted start, StepStarted tool1, StepErrored tool1]` and the
error `"boom"`. -/
theorem c4_tool_error_propagation :
    (∀ (ε : Type) (nodes : List NodeDef) (edges : List EdgeDef) (input_artifact : Val)
       (tc : String → Val → Except ε Val) (stop : Option String) (rs : Bool)
       (jid : String) (fuel : Nat) (current : NodeDef) (visited : List String)
       (results : List (String × Val)) (log : List AuditEvent) (e : EdgeDef)
       (next_node : NodeDef) (tool_name : String) (err : ε),
       current.type ≠ "end" → current.id ∉ visited → stop ≠ some current.id →
       select_edge (edges.filter (fun e2 => e2.from_ == current.id)) input_artifact =
         some e →
       node_map_get nodes e.to_ = some next_node →
       next_node.type = "tool" → next_node.tool = some tool_name →
       tc tool_name (resolve_args next_node.args input_artifact) = Except.error err →
       run_loop nodes edges input_artifact tc stop rs jid (fuel + 1) current visited
           results log =
         (log ++ [⟨"STEP_STARTED", jid, next_node.id, "2026-01-31T00:00:01Z", "started"⟩,
                  ⟨"STEP_ERRORED", jid, next_node.id, "2026-01-31T00:00:02Z", "errored"⟩],
          Except.error (RunErr.toolError err))) ∧
    run 10 wfErr Val.vnone tc_fail "job-1" none false none =
      ([⟨"STEP_STARTED", "job-1", "start", "2026-01-31T00:00:00Z", "started"⟩,
        ⟨"STEP_STARTED", "job-1", "tool1", "2026-01-31T00:00:01Z", "started"⟩,
        ⟨"STEP_ERRORED", "job-1", "tool1", "2026-01-31T00:00:02Z", "errored"⟩],
       Except.error (RunErr.toolError "boom")) := by
  refine ⟨fun ε nodes edges input_artifact tc stop rs jid fuel current visited results
    log e next_node tool_name err hend hvis hstop hsel hnm htype htool hcall => ?_, rfl⟩
  simp only [run_loop, if_neg hend, if_neg hvis, if_neg hstop, hsel, hnm, if_pos htype,
    htool, hcall, List.append_assoc, List.singleton_append]

/-- Witness for C4's general part at the concrete failing run over
`wfErr`. -/
theorem c4_tool_error_propagation_witness :
    run_loop wfErr.nodes wfErr.edges Val.vnone tc_fail none false "job-1" (9 + 1)
        nStart [] []
        [⟨"STEP_STARTED", "job-1", "start", "2026-01-31T00:00:00Z", "started"⟩] =
      ([⟨"STEP_STARTED", "job-1", "start", "2026-01-31T00:00:00Z", "started"⟩] ++
         [⟨"STEP_STARTED", "job-1", "tool1", "2026-01-31T00:00:01Z", "started"⟩,
          ⟨"STEP_ERRORED", "job-1", "tool1", "2026-01-31T00:00:02Z", "errored"⟩],
       Except.error (RunErr.toolError "boom")) :=
  c4_tool_error_propagation.1 String wfErr.nodes wfErr.edges Val.vnone tc_fail none
    false "job-1" 9 nStart [] []
    [⟨"STEP_STARTED", "job-1", "start", "2026-01-31T00:00:00Z", "started"⟩]
    ⟨"start", "tool1", none⟩ (nTool "tool1" "dummy_tool1") "dummy_tool1" "boom"
    (by decide) (by decide) (by decide) rfl rfl rfl rfl rfl

theorem node_map_get_mem {nodes : List NodeDef} {i : String} {n : NodeDef}
    (h : node_map_get nodes i = some n) : n ∈ nodes :=
  List.mem_reverse.mp (List.mem_of_find?_eq_some h)

theorem node_map_get_id {nodes : List NodeDef} {i : String} {n : NodeDef}
    (h : node_map_get nodes i = some n) : n.id = i := by
  have hp := List.find?_some h
  simpa using hp

/-- Structure of every `ok` outcome of the traversal loop: the emitted
events are exactly the tool pairs of a duplicate-free list of tool-node
ids (none of which was already visited and none of which is the entry
node), followed — when the run completes — by the final `StepEnded` of an
end node, or — when it pauses — by nothing, with the saved state present
exactly when `return_state` was requested and the pause occurring at the
`stop_at_node` target, which is the entry node itself or one of the
executed tool ids. -/
theorem run_loop_ok_shape {ε : Type} (nodes : List NodeDef) (edges : List EdgeDef)
    (input_artifact : Val) (tc : String → Val → Except ε Val) (stop : Option String)
    (rs : Bool) (jid : String)
    (hs : ∀ s n, stop = some s → node_map_get nodes s = some n → n.type = "tool") :
    ∀ (fuel : Nat) (current : NodeDef) (visited : List String)
      (results : List (String × Val)) (log0 log : List AuditEvent)
      (res : RunResult) (cp : Option Checkpoint),
      current ∈ nodes →
      run_loop nodes edges input_artifact tc stop rs jid fuel current visited
          results log0 = (log, Except.ok (res, cp)) →
      (current.type ≠ "end" → current.id ∉ visited) ∧
      ∃ ids : List String,
        res.job_id = jid ∧
        res.tool_results.map Prod.fst = results.map Prod.fst ++ ids ∧
        ids.Nodup ∧
        (∀ i ∈ ids, i ∉ visited ∧ i ≠ current.id ∧
          ∃ n, n ∈ nodes ∧ n.id = i ∧ n.type = "tool") ∧
        ((res.status = "completed" ∧ cp = none ∧
          ∃ endN, endN ∈ nodes ∧ endN.type = "end" ∧
            log = log0 ++ tool_pairs jid ids ++
              [⟨"STEP_ENDED", jid, endN.id, "2026-01-31T00:00:03Z", "ended"⟩]) ∨
         (res.status = "paused" ∧
          ∃ s, stop = some s ∧ log = log0 ++ tool_pairs jid ids ∧
            (∃ vis, cp = if rs then some (Checkpoint.mk s vis) else none) ∧
            ((current.id = s ∧ ids = []) ∨ s ∈ ids))) := by
  intro fuel
  induction fuel with
  | zero =>
    intro current visited results log0 log res cp hc hrun
    by_cases hend : current.type = "end"
    · simp only [run_loop, if_pos hend] at hrun
      injection hrun with hlog hres
      injection hres with hpair
      injection hpair with hres2 hcp
      subst hres2; subst hcp
      refine ⟨fun h => absurd hend h, [], rfl, by simp, List.nodup_nil, by simp,
        Or.inl ⟨rfl, rfl, current, hc, hend, ?_⟩⟩
      simp [tool_pairs, hlog.symm]
    · simp only [run_loop, if_neg hend] at hrun
      simp at hrun
  | succ fuel ih =>
    intro current visited results log0 log res cp hc hrun
    by_cases hend : current.type = "end"
    · simp only [run_loop, if_pos hend] at hrun
      injection hrun with hlog hres
      injection hres with hpair
      injection hpair with hres2 hcp
      subst hres2; subst hcp
      refine ⟨fun h => absurd hend h, [], rfl, by simp, List.nodup_nil, by simp,
        Or.inl ⟨rfl, rfl, current, hc, hend, ?_⟩⟩
      simp [tool_pairs, hlog.symm]
    · by_cases hvis : current.id ∈ visited
      · simp only [run_loop, if_neg hend, if_pos hvis] at hrun
        simp at hrun
      · by_cases hstop : stop = some current.id
        · simp only [run_loop, if_neg hend, if_neg hvis, if_pos hstop] at hrun
          injection hrun with hlog hres
          injection hres with hpair
          injection hpair with hres2 hcp
          subst hres2
          refine ⟨fun _ => hvis, [], rfl, by simp, List.nodup_nil, by simp,
            Or.inr ⟨rfl, current.id, hstop, by simp [tool_pairs, hlog.symm],
              ⟨current.id :: visited, hcp.symm⟩, Or.inl ⟨rfl, rfl⟩⟩⟩
        · cases hsel : select_edge (edges.filter (fun e => e.from_ == current.id))
            input_artifact with
          | none =>
            simp only [run_loop, if_neg hend, if_neg hvis, if_neg hstop, hsel] at hrun
            simp at hrun
          | some e =>
            cases hnm : node_map_get nodes e.to_ with
            | none =>
              simp only [run_loop, if_neg hend, if_neg hvis, if_neg hstop, hsel,
                hnm] at hrun
              simp at hrun
            | some next_node =>
              have hmem : next_node ∈ nodes := node_map_get_mem hnm
              have hid : next_node.id = e.to_ := node_map_get_id hnm
              by_cases htool : next_node.type = "tool"
              · cases htl : next_node.tool with
                | none =>
                  simp only [run_loop, if_neg hend, if_neg hvis, if_neg hstop, hsel,
                    hnm, if_pos htool, htl] at hrun
                  simp at hrun
                | some tool_name =>
                  cases hcall : tc tool_name (resolve_args next_node.args input_artifact)
                    with
                  | error err =>
                    simp only [run_loop, if_neg hend, if_neg hvis, if_neg hstop, hsel,
                      hnm, if_pos htool, htl, hcall] at hrun
                    simp at hrun
                  | ok r =>
                    simp only [run_loop, if_neg hend, if_neg hvis, if_neg hstop, hsel,
                      hnm, if_pos htool, htl, hcall] at hrun
                    obtain ⟨hnv, ids, hjob, hresmap, hnd, hprop, hcase⟩ :=
                      ih next_node (current.id :: visited) _ _ _ _ _ hmem hrun
                    have hne : next_node.type ≠ "end" := by rw [htool]; decide
                    have hnotin : next_node.id ∉ current.id :: visited := hnv hne
                    refine ⟨fun _ => hvis, next_node.id :: ids, hjob, ?_, ?_, ?_, ?_⟩
                    · rw [hresmap]; simp
                    · exact List.nodup_cons.mpr
                        ⟨fun hm => absurd rfl (hprop _ hm).2.1, hnd⟩
                    · intro i hi
                      rcases List.mem_cons.mp hi with hi | hi
                      · subst hi
                        exact ⟨fun hv => hnotin (List.mem_cons.mpr (Or.inr hv)),
                          fun heq => hnotin (List.mem_cons.mpr (Or.inl heq)),
                          next_node, hmem, rfl, htool⟩
                      · obtain ⟨hni, hne2, htn⟩ := hprop _ hi
                        exact ⟨fun hv => hni (List.mem_cons.mpr (Or.inr hv)),
                          fun heq => hni (List.mem_cons.mpr (Or.inl heq)), htn⟩
                    · rcases hcase with ⟨hst, hcp, endN, hem, het, hlog⟩ |
                        ⟨hst, s, hstop2, hlog, hcpex, hlast⟩
                      · refine Or.inl ⟨hst, hcp, endN, hem, het, ?_⟩
                        rw [hlog]; simp [tool_pairs, tool_pair]
                      · refine Or.inr ⟨hst, s, hstop2, ?_, hcpex, Or.inr ?_⟩
                        · rw [hlog]; simp [tool_pairs, tool_pair]
                        · rcases hlast with ⟨heq, _⟩ | hmem2
                          · exact List.mem_cons.mpr (Or.inl heq.symm)
                          · exact List.mem_cons.mpr (Or.inr hmem2)
              · simp only [run_loop, if_neg hend, if_neg hvis, if_neg hstop, hsel,
                  hnm, if_neg htool] at hrun
                obtain ⟨hnv, ids, hjob, hresmap, hnd, hprop, hcase⟩ :=
                  ih next_node (current.id :: visited) _ _ _ _ _ hmem hrun
                refine ⟨fun _ => hvis, ids, hjob, hresmap, hnd, ?_, ?_⟩
                · intro i hi
                  obtain ⟨hni, hne2, htn⟩ := hprop _ hi
                  exact ⟨fun hv => hni (List.mem_cons.mpr (Or.inr hv)),
                    fun heq => hni (List.mem_cons.mpr (Or.inl heq)), htn⟩
                · rcases hcase with ⟨hst, hcp, endN, hem, het, hlog⟩ |
                    ⟨hst, s, hstop2, hlog, hcpex, hlast⟩
                  · exact Or.inl ⟨hst, hcp, endN, hem, het, hlog⟩
                  · refine Or.inr ⟨hst, s, hstop2, hlog, hcpex, Or.inr ?_⟩
                    rcases hlast with ⟨heq, _⟩ | hmem2
                    · exfalso
                      apply htool
                      refine hs s next_node hstop2 ?_
                      rw [← heq, hid] at *
                      rw [heq] at hnm
                      exact hnm
                    · exact hmem2

theorem count_started_append (s : String) (l1 l2 : List AuditEvent) :
    count_started s (l1 ++ l2) = count_started s l1 + count_started s l2 := by
  simp [count_started, List.filter_append]

theorem count_ended_append (s : String) (l1 l2 : List AuditEvent) :
    count_ended s (l1 ++ l2) = count_ended s l1 + count_ended s l2 := by
  simp [count_ended, List.filter_append]

theorem count_started_tool_pairs (jid s : String) :
    ∀ ids : List String, count_started s (tool_pairs jid ids) = ids.count s
  | [] => rfl
  | i :: rest => by
    have ih := count_started_tool_pairs jid s rest
    by_cases h : i = s
    · subst h
      simp [tool_pairs, tool_pair, count_started, List.count_cons, ih,
        Nat.add_comm] at *
      omega
    · simp [tool_pairs, tool_pair, count_started, List.count_cons, ih, h] at *
      omega

theorem count_ended_tool_pairs (jid s : String) :
    ∀ ids : List String, count_ended s (tool_pairs jid ids) = ids.count s
  | [] => rfl
  | i :: rest => by
    have ih := count_ended_tool_pairs jid s rest
    by_cases h : i = s
    · subst h
      simp [tool_pairs, tool_pair, count_ended, List.count_cons, ih,
        Nat.add_comm] at *
      omega
    · simp [tool_pairs, tool_pair, count_ended, List.count_cons, ih, h] at *
      omega

theorem count_started_started_event (s jid x ts st : String) :
    count_started s [⟨"STEP_STARTED", jid, x, ts, st⟩] = if x = s then 1 else 0 := by
  by_cases h : x = s <;> simp [count_started, h]

theorem count_ended_started_event (s jid x ts st : String) :
    count_ended s [⟨"STEP_STARTED", jid, x, ts, st⟩] = 0 := by
  simp [count_ended]

theorem count_started_ended_event (s jid x ts st : String) :
    count_started s [⟨"STEP_ENDED", jid, x, ts, st⟩] = 0 := by
  simp [count_started]

theorem count_ended_ended_event (s jid x ts st : String) :
    count_ended s [⟨"STEP_ENDED", jid, x, ts, st⟩] = if x = s then 1 else 0 := by
  by_cases h : x = s <;> simp [count_ended, h]

/-- C5 (amended): every successful default `Run` (no stop, no resume) over
a guard-less workflow ends `completed` and emits exactly the initial
`StepStarted` of the start node, one `StepStarted`/`StepEnded` pair per
tool node executed — a duplicate-free id list, in traversal order, which
is also exactly the accumulated tool-result id list — and the final
`StepEnded` of the end node reached. -/
theorem c5_completed_audit_trail {ε : Type} (fuel : Nat) (wf_def : WfDef)
    (input_artifact : Val) (tc : String → Val → Except ε Val) (jid : String)
    (log : List AuditEvent) (res : RunResult) (cp : Option Checkpoint)
    (hng : ∀ e ∈ wf_def.edges, e.condition = none)
    (hrun : run fuel wf_def input_artifact tc jid none false none =
      (log, Except.ok (res, cp))) :
    res.status = "completed" ∧
    ∃ (startN endN : NodeDef) (ids : List String),
      wf_def.nodes.find? (fun n => n.type == "start") = some startN ∧
      ids.Nodup ∧
      (∀ i ∈ ids, ∃ n, n ∈ wf_def.nodes ∧ n.id = i ∧ n.type = "tool") ∧
      endN ∈ wf_def.nodes ∧ endN.type = "end" ∧
      res.tool_results.map Prod.fst = ids ∧
      log = ⟨"STEP_STARTED", jid, startN.id, "2026-01-31T00:00:00Z", "started"⟩ ::
        (tool_pairs jid ids ++
          [⟨"STEP_ENDED", jid, endN.id, "2026-01-31T00:00:03Z", "ended"⟩]) := by
  rw [run] at hrun
  cases hstart : wf_def.nodes.find? (fun n => n.type == "start") with
  | none => rw [hstart] at hrun; simp at hrun
  | some startN =>
    rw [hstart] at hrun
    have hsmem : startN ∈ wf_def.nodes := List.mem_of_find?_eq_some hstart
    obtain ⟨hnv, ids, hjob, hresmap, hnd, hprop, hcase⟩ :=
      run_loop_ok_shape wf_def.nodes wf_def.edges input_artifact tc none false jid
        (fun s n h => by cases h) fuel startN [] [] _ log res cp hsmem hrun
    rcases hcase with ⟨hst, hcp, endN, hem, het, hlog⟩ | ⟨hst, s, hstopeq, _⟩
    · exact ⟨hst, startN, endN, ids, rfl, hnd, fun i hi => (hprop i hi).2.2,
        hem, het, by simpa using hresmap, by rw [hlog]; simp⟩
    · cases hstopeq

theorem c5_completed_audit_trail_witness :
    (⟨"job-1", "completed",
        [("tool1", Val.vstr "dummy_tool1"), ("tool2", Val.vstr "dummy_tool2")]⟩ :
      RunResult).status = "completed" ∧
    ∃ (startN endN : NodeDef) (ids : List String),
      wfLin.nodes.find? (fun n => n.type == "start") = some startN ∧
      ids.Nodup ∧
      (∀ i ∈ ids, ∃ n, n ∈ wfLin.nodes ∧ n.id = i ∧ n.type = "tool") ∧
      endN ∈ wfLin.nodes ∧ endN.type = "end" ∧
      (⟨"job-1", "completed",
          [("tool1", Val.vstr "dummy_tool1"), ("tool2", Val.vstr "dummy_tool2")]⟩ :
        RunResult).tool_results.map Prod.fst = ids ∧
      ([⟨"STEP_STARTED", "job-1", "start", "2026-01-31T00:00:00Z", "started"⟩,
        ⟨"STEP_STARTED", "job-1", "tool1", "2026-01-31T00:00:01Z", "started"⟩,
        ⟨"STEP_ENDED", "job-1", "tool1", "2026-01-31T00:00:02Z", "ended"⟩,
        ⟨"STEP_STARTED", "job-1", "tool2", "2026-01-31T00:00:01Z", "started"⟩,
        ⟨"STEP_ENDED", "job-1", "tool2", "2026-01-31T00:00:02Z", "ended"⟩,
        ⟨"STEP_ENDED", "job-1", "end", "2026-01-31T00:00:03Z", "ended"⟩] :
        List AuditEvent) =
        ⟨"STEP_STARTED", "job-1", startN.id, "2026-01-31T00:00:00Z", "started"⟩ ::
          (tool_pairs "job-1" ids ++
            [⟨"STEP_ENDED", "job-1", endN.id, "2026-01-31T00:00:03Z", "ended"⟩]) :=
  c5_completed_audit_trail 10 wfLin Val.vnone tc_ok "job-1" _ _ _
    (fun e he => by
      simp only [wfLin, List.mem_cons, List.not_mem_nil, or_false] at he
      rcases he with h | h | h <;> subst h <;> rfl)
    rfl

/-- C5 counterexample: `wfUnreach` has two tool nodes and no guards and its
default run succeeds, yet the trail holds a `StepStarted`/`StepEnded` pair
for `toolA` only — `toolB`, a tool node, has no events — so the trail does
not contain one pair per Tool node of the workflow. -/
theorem c5_counterexample :
    (∀ e ∈ wfUnreach.edges, e.condition = none) ∧
    (wfUnreach.nodes.filter (fun n => n.type == "tool")).length = 2 ∧
    run 10 wfUnreach Val.vnone tc_ok "job-1" none false none =
      ([⟨"STEP_STARTED", "job-1", "start", "2026-01-31T00:00:00Z", "started"⟩,
        ⟨"STEP_STARTED", "job-1", "toolA", "2026-01-31T00:00:01Z", "started"⟩,
        ⟨"STEP_ENDED", "job-1", "toolA", "2026-01-31T00:00:02Z", "ended"⟩,
        ⟨"STEP_ENDED", "job-1", "end", "2026-01-31T00:00:03Z", "ended"⟩],
       Except.ok (⟨"job-1", "completed", [("toolA", Val.vstr "tA")]⟩, none)) ∧
    count_started "toolA"
      [⟨"STEP_STARTED", "job-1", "start", "2026-01-31T00:00:00Z", "started"⟩,
       ⟨"STEP_STARTED", "job-1", "toolA", "2026-01-31T00:00:01Z", "started"⟩,
       ⟨"STEP_ENDED", "job-1", "toolA", "2026-01-31T00:00:02Z", "ended"⟩,
       ⟨"STEP_ENDED", "job-1", "end", "2026-01-31T00:00:03Z", "ended"⟩] = 1 ∧
    count_started "toolB"
      [⟨"STEP_STARTED", "job-1", "start", "2026-01-31T00:00:00Z", "started"⟩,
       ⟨"STEP_STARTED", "job-1", "toolA", "2026-01-31T00:00:01Z", "started"⟩,
       ⟨"STEP_ENDED", "job-1", "toolA", "2026-01-31T00:00:02Z", "ended"⟩,
       ⟨"STEP_ENDED", "job-1", "end", "2026-01-31T00:00:03Z", "ended"⟩] = 0 := by
  refine ⟨fun e he => ?_, rfl, rfl, rfl, rfl⟩
  simp only [wfUnreach, List.mem_cons, List.not_mem_nil, or_false] at he
  rcases he with h | h <;> subst h <;> rfl

/-- C3: re-entering a node already in the visited set fails immediately
with `CycleDetected` for that node id, emitting no further events (the
trail is returned exactly as it stood); and the run over the cyclic
workflow `start → tool1 → start` never returns an `ok` outcome — in
particular never status `Completed` — at any fuel. -/
theorem c3_cycle_detected :
    (∀ (ε : Type) (nodes : List NodeDef) (edges : List EdgeDef) (input_artifact : Val)
       (tc : String → Val → Except ε Val) (stop : Option String) (rs : Bool)
       (jid : String) (fuel : Nat) (current : NodeDef) (visited : List String)
       (results : List (String × Val)) (log : List AuditEvent),
       current.type ≠ "end" → current.id ∈ visited →
       run_loop nodes edges input_artifact tc stop rs jid (fuel + 1) current visited
           results log =
         (log, Except.error (RunErr.cycleDetected current.id))) ∧
    (∀ fuel : Nat, ∃ err : RunErr Unit,
       (run fuel wfCyc Val.vnone tc_ok "job-1" none false none).2 =
         Except.error err) := by
  have ha : ∀ (ε : Type) (nodes : List NodeDef) (edges : List EdgeDef)
      (input_artifact : Val) (tc : String → Val → Except ε Val) (stop : Option String)
      (rs : Bool) (jid : String) (fuel : Nat) (current : NodeDef)
      (visited : List String) (results : List (String × Val)) (log : List AuditEvent),
      current.type ≠ "end" → current.id ∈ visited →
      run_loop nodes edges input_artifact tc stop rs jid (fuel + 1) current visited
          results log =
        (log, Except.error (RunErr.cycleDetected current.id)) := by
    intro ε nodes edges input_artifact tc stop rs jid fuel current visited results log
      hend hvis
    simp only [run_loop, if_neg hend, if_pos hvis]
  refine ⟨ha, fun fuel => ?_⟩
  rcases fuel with _ | _ | _ | n
  · exact ⟨RunErr.fuelExhausted, rfl⟩
  · exact ⟨RunErr.fuelExhausted, rfl⟩
  · exact ⟨RunErr.fuelExhausted, rfl⟩
  · refine ⟨RunErr.cycleDetected "start", ?_⟩
    have hstep : run (n + 3) wfCyc Val.vnone tc_ok "job-1" none false none =
        run_loop wfCyc.nodes wfCyc.edges Val.vnone tc_ok none false "job-1" (n + 1)
          nStart ["tool1", "start"] [("tool1", Val.vstr "dummy_tool1")]
          [⟨"STEP_STARTED", "job-1", "start", "2026-01-31T00:00:00Z", "started"⟩,
           ⟨"STEP_STARTED", "job-1", "tool1", "2026-01-31T00:00:01Z", "started"⟩,
           ⟨"STEP_ENDED", "job-1", "tool1", "2026-01-31T00:00:02Z", "ended"⟩] := rfl
    rw [hstep, ha Unit wfCyc.nodes wfCyc.edges Val.vnone tc_ok none false "job-1" n
      nStart ["tool1", "start"] _ _ (by decide) (by decide)]
    rfl

/-- Witness for C3's general part: a concrete loop state whose current
node is already visited fails with `CycleDetected` and an unchanged
trail. -/
theorem c3_cycle_detected_witness :
    run_loop wfCyc.nodes wfCyc.edges Val.vnone tc_ok none false "job-1" (5 + 1)
        nStart ["start"] [] [] =
      ([], Except.error (RunErr.cycleDetected "start")) :=
  c3_cycle_detected.1 Unit wfCyc.nodes wfCyc.edges Val.vnone tc_ok none false
    "job-1" 5 nStart ["start"] [] [] (by decide) (by decide)

/-- C7 counterexample: `wfBad` has two Start nodes, a duplicated node id
and a dangling edge, yet no `DefinitionError` is raised anywhere — the run
proceeds and returns `completed`, so malformed definitions are not
rejected before a job is created. -/
theorem c7_counterexample :
    (wfBad.nodes.filter (fun n => n.type == "start")).length = 2 ∧
    ¬ (wfBad.nodes.map NodeDef.id).Nodup ∧
    wfBad.edges.any (fun e => wfBad.nodes.all (fun n => n.id != e.from_)) = true ∧
    run 10 wfBad Val.vnone tc_ok "job-1" none false none =
      ([⟨"STEP_STARTED", "job-1", "start", "2026-01-31T00:00:00Z", "started"⟩,
        ⟨"STEP_ENDED", "job-1", "end", "2026-01-31T00:00:03Z", "ended"⟩],
       Except.ok (⟨"job-1", "completed", []⟩, none)) :=
  ⟨rfl, by decide, rfl, rfl⟩

/-- C7 (amended): the repository performs no build-time structural
validation.  `parse_workflow_yaml` only rejects a document missing the
`nodes` or `edges` key and returns anything else unchanged; the engine
then silently uses the first Start node and, for a duplicated id, the last
node bound in its node map, and an edge to an unknown node id fails only
at traversal time with a `KeyError` — never with a `DefinitionError`
before the job starts. -/
theorem c7_no_build_time_validation :
    (∀ (ns : List NodeDef) (es : List EdgeDef),
      parse_workflow_check ⟨some ns, some es⟩ = Except.ok ⟨ns, es⟩) ∧
    parse_workflow_check ⟨none, some []⟩ =
      Except.error "Invalid workflow YAML: missing nodes or edges" ∧
    parse_workflow_check ⟨some [], none⟩ =
      Except.error "Invalid workflow YAML: missing nodes or edges" ∧
    node_map_get wfBad.nodes "end" = some nEndDup ∧
    wfBad.nodes.find? (fun n => n.type == "start") = some nStart ∧
    run 10 wfDangle Val.vnone tc_ok "job-1" none false none =
      ([⟨"STEP_STARTED", "job-1", "start", "2026-01-31T00:00:00Z", "started"⟩],
       Except.error (RunErr.keyError "nowhere")) :=
  ⟨fun ns es => rfl, rfl, rfl, rfl, rfl, rfl⟩

theorem node_map_get_of_nodup {nodes : List NodeDef}
    (hnd : (nodes.map NodeDef.id).Nodup) {n : NodeDef} (hn : n ∈ nodes) :
    node_map_get nodes n.id = some n := by
  cases hm : node_map_get nodes n.id with
  | none =>
    exfalso
    have hnone := List.find?_eq_none.mp hm n (List.mem_reverse.mpr hn)
    simp at hnone
  | some m =>
    have hmm : m ∈ nodes := node_map_get_mem hm
    have hmid : m.id = n.id := node_map_get_id hm
    exact congrArg some (List.inj_on_of_nodup_map hnd hmm hn hmid)

/-- C1 (amended): over a workflow with distinct node ids, when `Run` with
`stop_at_node` naming a Tool node and `return_state` true returns status
`paused`, the returned saved state is non-null and names the stop node;
its `StepStarted`/`StepEnded` pair already appears exactly once in the
first run's trail; and whenever a second `Run` resuming from that state
returns `completed`, the pair still appears exactly once in the combined
trail of the two calls, and the resumed run re-executes no tool at the
stop node (its id is absent from the second run's tool results). -/
theorem c1_pause_resume_exactly_once {ε : Type} (wf_def : WfDef) (input_artifact : Val)
    (tc : String → Val → Except ε Val) (jid1 jid2 : String) (fuel1 fuel2 : Nat)
    (s : String) (sNode : NodeDef) (log1 : List AuditEvent) (res1 : RunResult)
    (cp1 : Option Checkpoint)
    (hnodup : (wf_def.nodes.map NodeDef.id).Nodup)
    (hsn : sNode ∈ wf_def.nodes) (hsid : sNode.id = s) (hstool : sNode.type = "tool")
    (hrun1 : run fuel1 wf_def input_artifact tc jid1 (some s) true none =
      (log1, Except.ok (res1, cp1)))
    (hpaused : res1.status = "paused") :
    ∃ st : Checkpoint, cp1 = some st ∧ st.current_node_id = s ∧
      count_started s log1 = 1 ∧ count_ended s log1 = 1 ∧
      ∀ (log2 : List AuditEvent) (res2 : RunResult) (cp2 : Option Checkpoint),
        run fuel2 wf_def input_artifact tc jid2 none false (some st) =
          (log2, Except.ok (res2, cp2)) →
        res2.status = "completed" →
        count_started s (log1 ++ log2) = 1 ∧ count_ended s (log1 ++ log2) = 1 ∧
        s ∉ res2.tool_results.map Prod.fst := by
  have hmaps : node_map_get wf_def.nodes s = some sNode := by
    have h := node_map_get_of_nodup hnodup hsn
    rwa [hsid] at h
  have hs : ∀ s' n, (some s : Option String) = some s' →
      node_map_get wf_def.nodes s' = some n → n.type = "tool" := by
    intro s' n h1 h2
    injection h1 with h1
    subst h1
    rw [hmaps] at h2
    injection h2 with h2
    rw [← h2]
    exact hstool
  rw [run] at hrun1
  cases hstart : wf_def.nodes.find? (fun n => n.type == "start") with
  | none => rw [hstart] at hrun1; simp at hrun1
  | some startN =>
    rw [hstart] at hrun1
    have hsmem : startN ∈ wf_def.nodes := List.mem_of_find?_eq_some hstart
    have hstype : startN.type = "start" := by
      have h := List.find?_some hstart
      simpa using h
    have hstartne : startN.id ≠ s := by
      intro h
      have heq : startN = sNode :=
        List.inj_on_of_nodup_map hnodup hsmem hsn (by rw [h, hsid])
      rw [heq, hstool] at hstype
      exact absurd hstype (by decide)
    obtain ⟨hnv1, ids1, hjob1, hresmap1, hnd1, hprop1, hcase1⟩ :=
      run_loop_ok_shape wf_def.nodes wf_def.edges input_artifact tc (some s) true jid1
        hs fuel1 startN [] [] _ log1 res1 cp1 hsmem hrun1
    rcases hcase1 with ⟨hst1, _⟩ | ⟨hst1, s', hstopeq, hlog1, ⟨vis, hcp⟩, hlast⟩
    · rw [hpaused] at hst1; exact absurd hst1 (by decide)
    · injection hstopeq with hseq
      subst hseq
      have hsin : s ∈ ids1 := by
        rcases hlast with ⟨heq, _⟩ | hin
        · exact absurd heq hstartne
        · exact hin
      have hcount1s : count_started s log1 = 1 := by
        rw [hlog1, count_started_append, count_started_tool_pairs,
          count_started_started_event, if_neg hstartne,
          List.count_eq_one_of_mem hnd1 hsin]
      have hcount1e : count_ended s log1 = 1 := by
        rw [hlog1, count_ended_append, count_ended_tool_pairs,
          count_ended_started_event, List.count_eq_one_of_mem hnd1 hsin]
      refine ⟨⟨s, vis⟩, by simpa using hcp, rfl, hcount1s, hcount1e, ?_⟩
      intro log2 res2 cp2 hrun2 hcompl2
      simp only [run, hmaps] at hrun2
      obtain ⟨hnv2, ids2, hjob2, hresmap2, hnd2, hprop2, hcase2⟩ :=
        run_loop_ok_shape wf_def.nodes wf_def.edges input_artifact tc none false jid2
          (fun a b h => by cases h) fuel2 sNode _ [] [] log2 res2 cp2 hsn hrun2
      rcases hcase2 with ⟨hst2, hcp2, endN, hem, het, hlog2⟩ | ⟨_, s2, habs, _⟩
      · have hendne : endN.id ≠ s := by
          intro h
          have heq : endN = sNode :=
            List.inj_on_of_nodup_map hnodup hem hsn (by rw [h, hsid])
          rw [heq, hstool] at het
          exact absurd het (by decide)
        have hsnot2 : s ∉ ids2 := fun hmem => (hprop2 s hmem).2.1 hsid.symm
        have hcount2s : count_started s log2 = 0 := by
          rw [hlog2, count_started_append, count_started_append,
            count_started_tool_pairs, count_started_ended_event,
            List.count_eq_zero.mpr hsnot2]
          rfl
        have hcount2e : count_ended s log2 = 0 := by
          rw [hlog2, count_ended_append, count_ended_append,
            count_ended_tool_pairs, count_ended_ended_event, if_neg hendne,
            List.count_eq_zero.mpr hsnot2]
          rfl
        refine ⟨?_, ?_, ?_⟩
        · rw [count_started_append, hcount1s, hcount2s]
        · rw [count_ended_append, hcount1e, hcount2e]
        · have hids2 : res2.tool_results.map Prod.fst = ids2 := by simpa using hresmap2
          rw [hids2]
          exact hsnot2
      · cases habs

/-- C1 counterexample: on `wfLin`, `tool2` is a reachable Tool node and
`Run` is called with `stop_at_node = "tool2"` and `return_state = true`,
yet the run does not return status `Paused` with a checkpoint — the tool
client raises at `tool1` first and the run propagates the error. -/
theorem c1_counterexample :
    Reachable wfLin.edges "start" "tool2" ∧
    nTool "tool2" "dummy_tool2" ∈ wfLin.nodes ∧
    (nTool "tool2" "dummy_tool2").id = "tool2" ∧
    (nTool "tool2" "dummy_tool2").type = "tool" ∧
    run 10 wfLin Val.vnone tc_fail_first "job-1" (some "tool2") true none =
      ([⟨"STEP_STARTED", "job-1", "start", "2026-01-31T00:00:00Z", "started"⟩,
        ⟨"STEP_STARTED", "job-1", "tool1", "2026-01-31T00:00:01Z", "started"⟩,
        ⟨"STEP_ERRORED", "job-1", "tool1", "2026-01-31T00:00:02Z", "errored"⟩],
       Except.error (RunErr.toolError "boom")) :=
  ⟨Reachable.step ⟨"start", "tool1", none⟩ (List.Mem.head _) rfl
      (Reachable.step ⟨"tool1", "tool2", none⟩ (List.Mem.tail _ (List.Mem.head _)) rfl
        (Reachable.refl "tool2")),
   List.Mem.tail _ (List.Mem.tail _ (List.Mem.head _)), rfl, rfl, rfl⟩

/-- Witness for C1 at the concrete linear workflow `wfLin`, stop node
`tool2`, with the always-succeeding client. -/
theorem c1_pause_resume_exactly_once_witness :
    ∃ st : Checkpoint,
      (some (Checkpoint.mk "tool2" ["tool2", "tool1", "start"]) : Option Checkpoint) =
        some st ∧
      st.current_node_id = "tool2" ∧
      count_started "tool2"
        [⟨"STEP_STARTED", "job-1", "start", "2026-01-31T00:00:00Z", "started"⟩,
         ⟨"STEP_STARTED", "job-1", "tool1", "2026-01-31T00:00:01Z", "started"⟩,
         ⟨"STEP_ENDED", "job-1", "tool1", "2026-01-31T00:00:02Z", "ended"⟩,
         ⟨"STEP_STARTED", "job-1", "tool2", "2026-01-31T00:00:01Z", "started"⟩,
         ⟨"STEP_ENDED", "job-1", "tool2", "2026-01-31T00:00:02Z", "ended"⟩] = 1 ∧
      count_ended "tool2"
        [⟨"STEP_STARTED", "job-1", "start", "2026-01-31T00:00:00Z", "started"⟩,
         ⟨"STEP_STARTED", "job-1", "tool1", "2026-01-31T00:00:01Z", "started"⟩,
         ⟨"STEP_ENDED", "job-1", "tool1", "2026-01-31T00:00:02Z", "ended"⟩,
         ⟨"STEP_STARTED", "job-1", "tool2", "2026-01-31T00:00:01Z", "started"⟩,
         ⟨"STEP_ENDED", "job-1", "tool2", "2026-01-31T00:00:02Z", "ended"⟩] = 1 ∧
      ∀ (log2 : List AuditEvent) (res2 : RunResult) (cp2 : Option Checkpoint),
        run 10 wfLin Val.vnone tc_ok "job-2" none false (some st) =
          (log2, Except.ok (res2, cp2)) →
        res2.status = "completed" →
        count_started "tool2"
          ([⟨"STEP_STARTED", "job-1", "start", "2026-01-31T00:00:00Z", "started"⟩,
            ⟨"STEP_STARTED", "job-1", "tool1", "2026-01-31T00:00:01Z", "started"⟩,
            ⟨"STEP_ENDED", "job-1", "tool1", "2026-01-31T00:00:02Z", "ended"⟩,
            ⟨"STEP_STARTED", "job-1", "tool2", "2026-01-31T00:00:01Z", "started"⟩,
            ⟨"STEP_ENDED", "job-1", "tool2", "2026-01-31T00:00:02Z", "ended"⟩] ++ log2) =
          1 ∧
        count_ended "tool2"
          ([⟨"STEP_STARTED", "job-1", "start", "2026-01-31T00:00:00Z", "started"⟩,
            ⟨"STEP_STARTED", "job-1", "tool1", "2026-01-31T00:00:01Z", "started"⟩,
            ⟨"STEP_ENDED", "job-1", "tool1", "2026-01-31T00:00:02Z", "ended"⟩,
            ⟨"STEP_STARTED", "job-1", "tool2", "2026-01-31T00:00:01Z", "started"⟩,
            ⟨"STEP_ENDED", "job-1", "tool2", "2026-01-31T00:00:02Z", "ended"⟩] ++ log2) =
          1 ∧
        "tool2" ∉ res2.tool_results.map Prod.fst :=
  c1_pause_resume_exactly_once wfLin Val.vnone tc_ok "job-1" "job-2" 10 10 "tool2"
    (nTool "tool2" "dummy_tool2")
    [⟨"STEP_STARTED", "job-1", "start", "2026-01-31T00:00:00Z", "started"⟩,
     ⟨"STEP_STARTED", "job-1", "tool1", "2026-01-31T00:00:01Z", "started"⟩,
     ⟨"STEP_ENDED", "job-1", "tool1", "2026-01-31T00:00:02Z", "ended"⟩,
     ⟨"STEP_STARTED", "job-1", "tool2", "2026-01-31T00:00:01Z", "started"⟩,
     ⟨"STEP_ENDED", "job-1", "tool2", "2026-01-31T00:00:02Z", "ended"⟩]
    ⟨"job-1", "paused",
      [("tool1", Val.vstr "dummy_tool1"), ("tool2", Val.vstr "dummy_tool2")]⟩
    (some (Checkpoint.mk "tool2" ["tool2", "tool1", "start"]))
    (by decide) (List.Mem.tail _ (List.Mem.tail _ (List.Mem.head _))) rfl rfl rfl rfl

end AgenticPlatform
